import Mathlib

/-!
Verification of the spot-feed real-time relay core.

The definitions below are a shallow embedding of the Rust sources:
  * `src/ws/manager.rs`  — `Client`, `ConnectionManager` (`add_client`,
    `remove_client`, `broadcast_to_joint`, `get_joint_user_count`);
  * `src/ws/handler.rs`  — the reader unit of `handle_socket` (`recvStep`);
  * `src/middleware/ws_auth.rs` — `ws_auth_middleware`;
  * `src/errors.rs`      — `AppError` and its HTTP status mapping;
  * `src/utils/jwt.rs`   — the `Claims` record (token verification itself is
    an external collaborator, passed as an oracle).

`Uuid` is modelled as `Nat`.  The `HashMap<Uuid, Client>` is modelled as an
association list; `mpsc::UnboundedSender<String>` handles are modelled as
queue identifiers pointing into a pool of queue states (`isOpen` is false
once the receiving half has been dropped).  `tracing::error!` calls during a
broadcast are modelled by the list of recipient ids whose send failed.
-/

namespace SpotFeed

abbrev Uuid := Nat

/-- Model of `Client` in `src/ws/manager.rs`: connected client info. -/
structure Client where
  user_id : Uuid
  username : String
  joint_id : Uuid
  sender : Nat
  deriving Repr, DecidableEq

/-- State of one mpsc channel: whether the receiving half is still alive,
and the messages enqueued so far (FIFO). -/
structure QueueState where
  isOpen : Bool
  msgs : List String
  deriving Repr, DecidableEq

/-- Association-list lookup (first entry with the given key), modelling
`HashMap::get`. -/
def lookupKey {α : Type} (k : Nat) : List (Nat × α) → Option α
  | [] => none
  | (k', v) :: l => if k' = k then some v else lookupKey k l

/-- Remove every entry with the given key, modelling `HashMap::remove`
(for maps with distinct keys the two coincide). -/
def eraseKey {α : Type} (k : Nat) : List (Nat × α) → List (Nat × α)
  | [] => []
  | (k', v) :: l => if k' = k then eraseKey k l else (k', v) :: eraseKey k l

/-- Replace the value of the first entry with the given key (no-op when the
key is absent). -/
def updateKey {α : Type} (k : Nat) (v : α) : List (Nat × α) → List (Nat × α)
  | [] => []
  | (k', v') :: l => if k' = k then (k, v) :: l else (k', v') :: updateKey k v l

/-- The whole mutable state of the core: the `ConnectionManager`'s map
`clients : HashMap<Uuid, Client>` together with the pool of per-connection
outbound queues the registered sender handles point into. -/
structure RegistryState where
  clients : List (Uuid × Client)
  queues : List (Nat × QueueState)
  deriving Repr, DecidableEq

/-- Model of `mpsc::UnboundedSender::send`: appends to the queue and
succeeds when the receiver is still alive, otherwise fails leaving the pool
unchanged.  Returns the new pool and whether the send succeeded. -/
def sendToQueue (queues : List (Nat × QueueState)) (qid : Nat)
    (message : String) : List (Nat × QueueState) × Bool :=
  match lookupKey qid queues with
  | some q =>
      if q.isOpen then
        (updateKey qid ⟨true, q.msgs ++ [message]⟩ queues, true)
      else (queues, false)
  | none => (queues, false)

namespace ConnectionManager

/-- `ConnectionManager::add_client`: `self.clients.write().await.insert(user_id, client)`. -/
def add_client (s : RegistryState) (user_id : Uuid) (username : String)
    (joint_id : Uuid) (sender : Nat) : RegistryState :=
  { s with clients :=
      (user_id, ⟨user_id, username, joint_id, sender⟩) :: eraseKey user_id s.clients }

/-- `ConnectionManager::remove_client`: `self.clients.write().await.remove(user_id)`
(the removed value is only used for logging). -/
def remove_client (s : RegistryState) (user_id : Uuid) : RegistryState :=
  { s with clients := eraseKey user_id s.clients }

/-- One iteration of the loop in `ConnectionManager::broadcast_to_joint`:
send to the client when its joint matches and it is not the sender; a failed
send is logged (second accumulator component) and skipped. -/
def bstep (joint_id : Uuid) (message : String) (sender_id : Uuid)
    (acc : List (Nat × QueueState) × List Uuid) (p : Uuid × Client) :
    List (Nat × QueueState) × List Uuid :=
  if p.2.joint_id = joint_id ∧ p.1 ≠ sender_id then
    let r := sendToQueue acc.1 p.2.sender message
    (r.1, if r.2 then acc.2 else acc.2 ++ [p.1])
  else acc

/-- `ConnectionManager::broadcast_to_joint`: iterate over all clients, send
to every member of the joint except the sender.  The second component is the
list of recipients whose send failed (the `tracing::error!` log). -/
def broadcast_to_joint (s : RegistryState) (joint_id : Uuid)
    (message : String) (sender_id : Uuid) : RegistryState × List Uuid :=
  let r := s.clients.foldl (bstep joint_id message sender_id) (s.queues, [])
  ({ s with queues := r.1 }, r.2)

/-- `ConnectionManager::get_joint_user_count`:
`self.clients.read().await.values().filter(|c| c.joint_id == joint_id).count()`. -/
def get_joint_user_count (s : RegistryState) (joint_id : Uuid) : Nat :=
  (s.clients.map Prod.snd).countP (fun c => c.joint_id == joint_id)

end ConnectionManager

/-- Well-formedness the relay maintains: identities are map keys (distinct),
and every connection has its own freshly created channel, so distinct
registered records never share a sender handle. -/
def WF (s : RegistryState) : Prop :=
  (s.clients.map Prod.fst).Nodup ∧
  ∀ p ∈ s.clients, ∀ q ∈ s.clients, p.2.sender = q.2.sender → p = q

/-- A websocket frame as seen by the reader unit in `handle_socket`:
`Message::Text`, `Message::Close`, or any other frame kind. -/
inductive WsMessage : Type
  | text (t : String)
  | close
  | other
  deriving Repr, DecidableEq

/-- Whether the reader loop continues to the next frame or breaks. -/
inductive LoopCtl : Type
  | cont
  | brk
  deriving Repr, DecidableEq

/-- Model of `OutgoingMessage` in `src/ws/handler.rs`. -/
structure OutgoingMessage where
  id : Uuid
  joint_id : Uuid
  user_id : Uuid
  username : String
  content : String
  created_at : String
  deriving Repr, DecidableEq

/-- One iteration of the reader loop (`recv_task`) in `handle_socket`:
parse the text frame (`serde_json::from_str::<IncomingMessage>`, an oracle
returning the `content` field), INSERT the message row (`persistOk` is the
outcome of the `sqlx::query!` — on failure log and `continue`), then build
the `OutgoingMessage` and, if it serializes, broadcast it to the joint
excluding the sender.  A `Close` frame breaks the loop; other frames are
ignored. -/
def recvStep (parseIncoming : String → Option String) (persistOk : Bool)
    (serialize : OutgoingMessage → Option String)
    (message_id : Uuid) (created_at : String)
    (s : RegistryState) (msg : WsMessage)
    (joint_id user_id : Uuid) (username_clone : String) :
    RegistryState × LoopCtl :=
  match msg with
  | .text t =>
    match parseIncoming t with
    | some content =>
      if persistOk then
        let outgoing : OutgoingMessage :=
          ⟨message_id, joint_id, user_id, username_clone, content, created_at⟩
        match serialize outgoing with
        | some json =>
            ((ConnectionManager.broadcast_to_joint s joint_id json user_id).1,
             LoopCtl.cont)
        | none => (s, LoopCtl.cont)
      else (s, LoopCtl.cont)
    | none => (s, LoopCtl.cont)
  | .close => (s, LoopCtl.brk)
  | .other => (s, LoopCtl.cont)

/-- Model of `AppError` in `src/errors.rs` (payloads irrelevant to control
flow are dropped). -/
inductive AppError : Type
  | DatabaseError
  | InvalidCredentials
  | InvalidToken
  | TokenExpired
  | Unauthorized
  | ValidationError (msg : String)
  | UserAlreadyExists
  | UserNotFound
  | InvalidOtp
  | OtpExpired
  | InternalError (msg : String)
  deriving Repr, DecidableEq

/-- The HTTP status each error maps to in `impl IntoResponse for AppError`. -/
def AppError.statusCode : AppError → Nat
  | .DatabaseError => 500
  | .InvalidCredentials => 401
  | .InvalidToken => 401
  | .TokenExpired => 401
  | .Unauthorized => 401
  | .ValidationError _ => 400
  | .UserAlreadyExists => 409
  | .UserNotFound => 404
  | .InvalidOtp => 400
  | .OtpExpired => 400
  | .InternalError _ => 500

/-- Model of `Claims` in `src/utils/jwt.rs`. -/
structure Claims where
  sub : String
  exp : Int
  iat : Int
  deriving Repr, DecidableEq

/-- `str::starts_with`, on the character sequence of the string. -/
def strStartsWith (s pat : String) : Bool :=
  pat.data.isPrefixOf s.data

/-- Drop the first `n` characters of a string. -/
def strDrop (s : String) (n : Nat) : String :=
  ⟨s.data.drop n⟩

/-- Fuel-driven loop of `str::trim_start_matches`: repeatedly strip the
pattern while it is a (non-empty) leading pattern. -/
def trimStartMatchesAux (pat : String) : Nat → String → String
  | 0, s => s
  | n + 1, s =>
    if pat.data ≠ [] ∧ strStartsWith s pat = true then
      trimStartMatchesAux pat n (strDrop s pat.data.length)
    else s

/-- `str::trim_start_matches` (the fuel `s.data.length` suffices since each
round strips a non-empty pattern). -/
def trim_start_matches (s pat : String) : String :=
  trimStartMatchesAux pat s.data.length s

/-- The external collaborators `ws_auth_middleware` calls: JWT verification
(`verify_token` of `src/utils/jwt.rs`), `Uuid::parse_str`, the
`SELECT username FROM users` row (as an optional username), and the
`SELECT id FROM joint_members` row (as membership yes/no); database calls
may themselves fail (`sqlx::Error → AppError::DatabaseError` via `?`). -/
structure WsAuthEnv where
  verify_token : String → Except AppError Claims
  parse_uuid : String → Option Uuid
  db_username : Uuid → Except AppError (Option String)
  db_membership : Uuid → Uuid → Except AppError Bool

/-- `ws_auth_middleware` of `src/middleware/ws_auth.rs`, step by step:
(1) the `Authorization` header must be present (else `Unauthorized`) and
start with `"Bearer "` (else `Unauthorized`); (2) the token is verified and
`claims.sub` parsed into a user id (parse failure is `InvalidToken`), the
username resolved from the database (no row is `Unauthorized`);
(3) membership of the joint is checked (no row is a `ValidationError`).
On success it returns the extensions inserted into the request:
`(user_id, joint_id, username)`. -/
def ws_auth_middleware (env : WsAuthEnv) (joint_id : Uuid)
    (auth_header : Option String) : Except AppError (Uuid × Uuid × String) :=
  match auth_header with
  | none => .error .Unauthorized
  | some h =>
    if strStartsWith h "Bearer " = true then
      let token := trim_start_matches h "Bearer "
      match env.verify_token token with
      | .error e => .error e
      | .ok claims =>
        match env.parse_uuid claims.sub with
        | none => .error .InvalidToken
        | some user_id =>
          match env.db_username user_id with
          | .error e => .error e
          | .ok none => .error .Unauthorized
          | .ok (some username) =>
            match env.db_membership joint_id user_id with
            | .error e => .error e
            | .ok false =>
                .error (.ValidationError "You are not a member of this joint")
            | .ok true => .ok (user_id, joint_id, username)
    else .error .Unauthorized

/-- The websocket route as wired in `main.rs`: `ws_auth_middleware` wraps
`websocket_handler`; only when the middleware succeeds does the upgrade run
`handle_socket`, which creates a fresh channel and registers the client.
On a middleware error the response is the error and the registry is
untouched. -/
def ws_connect (env : WsAuthEnv) (s : RegistryState) (joint_id : Uuid)
    (auth_header : Option String) (fresh_sender : Nat) :
    RegistryState × Option AppError :=
  match ws_auth_middleware env joint_id auth_header with
  | .error e => (s, some e)
  | .ok (user_id, jid, username) =>
      (ConnectionManager.add_client
        { s with queues := (fresh_sender, ⟨true, []⟩) :: s.queues }
        user_id username jid fresh_sender, none)

/-- Apply a sequence of broadcasts `(joint_id, message, sender_id)` to the
registry state. -/
def applyBroadcasts (s : RegistryState) :
    List (Uuid × String × Uuid) → RegistryState
  | [] => s
  | (g, m, ex) :: rest =>
      applyBroadcasts (ConnectionManager.broadcast_to_joint s g m ex).1 rest

/-- The spec's `countInGroup(G)` stated in its own words: the number of
currently registered records whose `groupId` equals `G`. -/
def spec_countInGroup (s : RegistryState) (g : Uuid) : Nat :=
  (s.clients.filter (fun p => p.2.joint_id == g)).length

/-- Concrete state: clients 1, 2, 3 all in joint 5, with fresh open queues
10, 20, 30. -/
def stateABC : RegistryState :=
  { clients :=
      [(1, ⟨1, "a", 5, 10⟩), (2, ⟨2, "b", 5, 20⟩), (3, ⟨3, "c", 5, 30⟩)],
    queues := [(10, ⟨true, []⟩), (20, ⟨true, []⟩), (30, ⟨true, []⟩)] }

/-- Concrete state: a single client (id 1, joint 5) whose outbound queue 10
is closed (its writer side has terminated, but teardown has not run yet). -/
def deadState : RegistryState :=
  { clients := [(1, ⟨1, "alice", 5, 10⟩)],
    queues := [(10, ⟨false, []⟩)] }

/-- Concrete state: joint 5 has clients 1 (open queue 10), 2 (closed queue
20) and 3 (open queue 30). -/
def mixedState : RegistryState :=
  { clients :=
      [(1, ⟨1, "a", 5, 10⟩), (2, ⟨2, "b", 5, 20⟩), (3, ⟨3, "c", 5, 30⟩)],
    queues := [(10, ⟨true, []⟩), (20, ⟨false, []⟩), (30, ⟨true, []⟩)] }

/-- A parse oracle that accepts every frame with content `"hi"`. -/
def parseHi : String → Option String := fun _ => some "hi"

/-- A serialization oracle that renders just the content. -/
def serContent : OutgoingMessage → Option String := fun o => some o.content

/-- A concrete admission environment: token `"tok"` belongs to user 42
named `"alice"`, who is a member exactly of joint 7. -/
def envOK : WsAuthEnv :=
  { verify_token := fun t =>
      if t = "tok" then .ok ⟨"42", 0, 0⟩ else .error .InvalidToken,
    parse_uuid := fun s => if s = "42" then some 42 else none,
    db_username := fun u => if u = 42 then .ok (some "alice") else .ok none,
    db_membership := fun j u => .ok (decide (j = 7 ∧ u = 42)) }

/-! ### Association-list lemmas -/

theorem lookupKey_eraseKey_self {α : Type} (k : Nat) (l : List (Nat × α)) :
    lookupKey k (eraseKey k l) = none := by
  induction l with
  | nil => rfl
  | cons p l ih =>
    obtain ⟨k', v⟩ := p
    by_cases h : k' = k
    · simpa [eraseKey, h] using ih
    · simpa [eraseKey, lookupKey, h] using ih

theorem lookupKey_eraseKey_ne {α : Type} {k k' : Nat} (h : k' ≠ k)
    (l : List (Nat × α)) :
    lookupKey k' (eraseKey k l) = lookupKey k' l := by
  induction l with
  | nil => rfl
  | cons p l ih =>
    obtain ⟨k'', v⟩ := p
    by_cases hk : k'' = k
    · subst hk
      have : k'' ≠ k' := fun he => h he.symm
      simpa [eraseKey, lookupKey, this] using ih
    · by_cases hq : k'' = k'
      · simp [eraseKey, lookupKey, hk, hq, h]
      · simpa [eraseKey, lookupKey, hk, hq] using ih

theorem eraseKey_of_lookupKey_none {α : Type} {k : Nat} :
    ∀ {l : List (Nat × α)}, lookupKey k l = none → eraseKey k l = l := by
  intro l
  induction l with
  | nil => intro _; rfl
  | cons p l ih =>
    obtain ⟨k', v⟩ := p
    intro h
    by_cases hk : k' = k
    · simp [lookupKey, hk] at h
    · simp only [lookupKey, if_neg hk] at h
      simp [eraseKey, hk, ih h]

theorem mem_eraseKey {α : Type} {k : Nat} {p : Nat × α} :
    ∀ {l : List (Nat × α)}, p ∈ eraseKey k l → p ∈ l ∧ p.1 ≠ k := by
  intro l
  induction l with
  | nil => intro h; simp [eraseKey] at h
  | cons q l ih =>
    obtain ⟨k', v⟩ := q
    intro h
    by_cases hk : k' = k
    · simp only [eraseKey, if_pos hk] at h
      exact ⟨List.mem_cons_of_mem _ (ih h).1, (ih h).2⟩
    · simp only [eraseKey, if_neg hk] at h
      rcases List.mem_cons.mp h with h | h
      · subst h; exact ⟨List.mem_cons_self _ _, hk⟩
      · exact ⟨List.mem_cons_of_mem _ (ih h).1, (ih h).2⟩

theorem eraseKey_sublist {α : Type} (k : Nat) :
    ∀ l : List (Nat × α), (eraseKey k l).Sublist l := by
  intro l
  induction l with
  | nil => exact List.Sublist.refl _
  | cons p l ih =>
    obtain ⟨k', v⟩ := p
    by_cases hk : k' = k
    · have h := List.Sublist.cons (k', v) ih
      simpa [eraseKey, hk] using h
    · have h := List.Sublist.cons₂ (k', v) ih
      simpa [eraseKey, hk] using h

theorem nodup_map_fst_eraseKey {α : Type} (k : Nat) {l : List (Nat × α)}
    (h : (l.map Prod.fst).Nodup) : ((eraseKey k l).map Prod.fst).Nodup :=
  ((eraseKey_sublist k l).map Prod.fst).nodup h

theorem not_mem_map_fst_eraseKey {α : Type} (k : Nat) (l : List (Nat × α)) :
    k ∉ (eraseKey k l).map Prod.fst := by
  intro h
  rcases List.mem_map.mp h with ⟨p, hp, hk⟩
  exact (mem_eraseKey hp).2 hk

theorem lookupKey_updateKey_self {α : Type} (k : Nat) (v : α) :
    ∀ l : List (Nat × α),
      lookupKey k (updateKey k v l) = (lookupKey k l).map (fun _ => v) := by
  intro l
  induction l with
  | nil => rfl
  | cons p l ih =>
    obtain ⟨k', v'⟩ := p
    by_cases hk : k' = k
    · simp [updateKey, lookupKey, hk]
    · simpa [updateKey, lookupKey, hk] using ih

theorem lookupKey_updateKey_ne {α : Type} {k k' : Nat} (h : k' ≠ k) (v : α) :
    ∀ l : List (Nat × α),
      lookupKey k' (updateKey k v l) = lookupKey k' l := by
  intro l
  induction l with
  | nil => rfl
  | cons p l ih =>
    obtain ⟨k'', v'⟩ := p
    by_cases hk : k'' = k
    · subst hk
      have hne : k'' ≠ k' := fun he => h he.symm
      simp [updateKey, lookupKey, hne]
    · by_cases hq : k'' = k'
      · simp [updateKey, lookupKey, hk, hq, h]
      · simpa [updateKey, lookupKey, hk, hq] using ih

/-! ### `sendToQueue` lemmas -/

theorem sendToQueue_lookup_ne {qs : List (Nat × QueueState)} {qid qid' : Nat}
    {m : String} (h : qid' ≠ qid) :
    lookupKey qid' (sendToQueue qs qid m).1 = lookupKey qid' qs := by
  unfold sendToQueue
  cases hl : lookupKey qid qs with
  | none => rfl
  | some q =>
    by_cases ho : q.isOpen
    · simp [ho, lookupKey_updateKey_ne h]
    · simp [ho]

theorem sendToQueue_open {qs : List (Nat × QueueState)} {qid : Nat}
    {ms : List String} (m : String)
    (h : lookupKey qid qs = some ⟨true, ms⟩) :
    sendToQueue qs qid m = (updateKey qid ⟨true, ms ++ [m]⟩ qs, true) := by
  simp [sendToQueue, h]

theorem sendToQueue_closed {qs : List (Nat × QueueState)} {qid : Nat}
    {ms : List String} (m : String)
    (h : lookupKey qid qs = some ⟨false, ms⟩) :
    sendToQueue qs qid m = (qs, false) := by
  simp [sendToQueue, h]

theorem sendToQueue_lookup_closed {qs : List (Nat × QueueState)}
    {qid qid' : Nat} {ms : List String} (m : String)
    (h : lookupKey qid' qs = some ⟨false, ms⟩) :
    lookupKey qid' (sendToQueue qs qid m).1 = some ⟨false, ms⟩ := by
  by_cases he : qid' = qid
  · subst he
    rw [sendToQueue_closed m h]
    exact h
  · rw [sendToQueue_lookup_ne he, h]

/-! ### Broadcast fold lemmas -/

theorem bstep_not_eligible {g : Uuid} {m : String} {ex : Uuid}
    {acc : List (Nat × QueueState) × List Uuid} {c : Uuid × Client}
    (h : ¬(c.2.joint_id = g ∧ c.1 ≠ ex)) :
    ConnectionManager.bstep g m ex acc c = acc := by
  simp [ConnectionManager.bstep, h]

theorem bstep_eligible {g : Uuid} {m : String} {ex : Uuid}
    (qs : List (Nat × QueueState)) (fs : List Uuid) {c : Uuid × Client}
    (h1 : c.2.joint_id = g) (h2 : c.1 ≠ ex) :
    ConnectionManager.bstep g m ex (qs, fs) c =
      ((sendToQueue qs c.2.sender m).1,
       if (sendToQueue qs c.2.sender m).2 = true then fs else fs ++ [c.1]) := by
  simp [ConnectionManager.bstep, h1, h2]

theorem bstep_lookup_ne {g : Uuid} {m : String} {ex : Uuid}
    (qs : List (Nat × QueueState)) (fs : List Uuid) {c : Uuid × Client}
    {qid : Nat} (h : c.2.sender ≠ qid) :
    lookupKey qid (ConnectionManager.bstep g m ex (qs, fs) c).1
      = lookupKey qid qs := by
  by_cases hc : c.2.joint_id = g ∧ c.1 ≠ ex
  · rw [bstep_eligible qs fs hc.1 hc.2]
    exact sendToQueue_lookup_ne (Ne.symm h)
  · rw [bstep_not_eligible hc]

theorem bstep_lookup_closed {g : Uuid} {m : String} {ex : Uuid}
    (qs : List (Nat × QueueState)) (fs : List Uuid) {c : Uuid × Client}
    {qid : Nat} {ms : List String}
    (h : lookupKey qid qs = some ⟨false, ms⟩) :
    lookupKey qid (ConnectionManager.bstep g m ex (qs, fs) c).1
      = some ⟨false, ms⟩ := by
  by_cases hc : c.2.joint_id = g ∧ c.1 ≠ ex
  · rw [bstep_eligible qs fs hc.1 hc.2]
    exact sendToQueue_lookup_closed m h
  · rw [bstep_not_eligible hc]; exact h

theorem bstep_snd_mem {g : Uuid} {m : String} {ex : Uuid}
    (qs : List (Nat × QueueState)) (fs : List Uuid) {c : Uuid × Client}
    {x : Uuid} (h : x ∈ fs) :
    x ∈ (ConnectionManager.bstep g m ex (qs, fs) c).2 := by
  by_cases hc : c.2.joint_id = g ∧ c.1 ≠ ex
  · rw [bstep_eligible qs fs hc.1 hc.2]
    by_cases hs : (sendToQueue qs c.2.sender m).2 = true
    · simpa [hs] using h
    · simp only [if_neg hs]
      exact List.mem_append_left _ h
  · rw [bstep_not_eligible hc]; exact h

theorem bfold_frame (g : Uuid) (m : String) (ex : Uuid) (qid : Nat) :
    ∀ (cs : List (Uuid × Client)) (qs : List (Nat × QueueState))
      (fs : List Uuid),
      (∀ p ∈ cs, p.2.joint_id = g → p.1 ≠ ex → p.2.sender ≠ qid) →
      lookupKey qid (cs.foldl (ConnectionManager.bstep g m ex) (qs, fs)).1
        = lookupKey qid qs := by
  intro cs
  induction cs with
  | nil => intro qs fs _; rfl
  | cons c cs ih =>
    intro qs fs h
    rcases hb : ConnectionManager.bstep g m ex (qs, fs) c with ⟨qs', fs'⟩
    have hq : lookupKey qid qs' = lookupKey qid qs := by
      by_cases hc : c.2.joint_id = g ∧ c.1 ≠ ex
      · have h2 : lookupKey qid (ConnectionManager.bstep g m ex (qs, fs) c).1
            = lookupKey qid qs :=
          bstep_lookup_ne qs fs (h c (List.mem_cons_self _ _) hc.1 hc.2)
        rw [hb] at h2; exact h2
      · rw [bstep_not_eligible hc] at hb
        cases hb; rfl
    rw [List.foldl_cons, hb,
      ih qs' fs' (fun p hp h1 h2 => h p (List.mem_cons_of_mem _ hp) h1 h2), hq]

theorem bfold_id (g : Uuid) (m : String) (ex : Uuid) :
    ∀ (cs : List (Uuid × Client)) (qs : List (Nat × QueueState))
      (fs : List Uuid),
      (∀ p ∈ cs, p.2.joint_id = g → p.1 = ex) →
      cs.foldl (ConnectionManager.bstep g m ex) (qs, fs) = (qs, fs) := by
  intro cs
  induction cs with
  | nil => intro qs fs _; rfl
  | cons c cs ih =>
    intro qs fs h
    have hc : ¬(c.2.joint_id = g ∧ c.1 ≠ ex) := by
      rintro ⟨h1, h2⟩
      exact h2 (h c (List.mem_cons_self _ _) h1)
    rw [List.foldl_cons, bstep_not_eligible hc]
    exact ih qs fs (fun p hp => h p (List.mem_cons_of_mem _ hp))

theorem bfold_fails_mono (g : Uuid) (m : String) (ex : Uuid) :
    ∀ (cs : List (Uuid × Client)) (qs : List (Nat × QueueState))
      (fs : List Uuid) (x : Uuid), x ∈ fs →
      x ∈ (cs.foldl (ConnectionManager.bstep g m ex) (qs, fs)).2 := by
  intro cs
  induction cs with
  | nil => intro qs fs x hx; exact hx
  | cons c cs ih =>
    intro qs fs x hx
    rcases hb : ConnectionManager.bstep g m ex (qs, fs) c with ⟨qs', fs'⟩
    have hx' : x ∈ fs' := by
      have h2 : x ∈ (ConnectionManager.bstep g m ex (qs, fs) c).2 :=
        bstep_snd_mem qs fs hx
      rw [hb] at h2; exact h2
    rw [List.foldl_cons, hb]
    exact ih qs' fs' x hx'

theorem bfold_logs_closed (g : Uuid) (m : String) (ex : Uuid)
    (p : Uuid × Client) (ms : List String) :
    ∀ (cs : List (Uuid × Client)) (qs : List (Nat × QueueState))
      (fs : List Uuid),
      p ∈ cs → p.2.joint_id = g → p.1 ≠ ex →
      lookupKey p.2.sender qs = some ⟨false, ms⟩ →
      p.1 ∈ (cs.foldl (ConnectionManager.bstep g m ex) (qs, fs)).2 := by
  intro cs
  induction cs with
  | nil => intro qs fs hp _ _ _; simp at hp
  | cons c cs ih =>
    intro qs fs hp hj hex hq
    rw [List.foldl_cons]
    rcases List.mem_cons.mp hp with he | hp'
    · subst he
      have hb : ConnectionManager.bstep g m ex (qs, fs) p = (qs, fs ++ [p.1]) := by
        rw [bstep_eligible qs fs hj hex, sendToQueue_closed m hq]
        simp
      rw [hb]
      exact bfold_fails_mono g m ex cs qs (fs ++ [p.1]) p.1
        (List.mem_append_right _ (List.mem_singleton.mpr rfl))
    · rcases hb : ConnectionManager.bstep g m ex (qs, fs) c with ⟨qs', fs'⟩
      have hq' : lookupKey p.2.sender qs' = some ⟨false, ms⟩ := by
        have h2 : lookupKey p.2.sender
            (ConnectionManager.bstep g m ex (qs, fs) c).1 = some ⟨false, ms⟩ :=
          bstep_lookup_closed qs fs hq
        rw [hb] at h2; exact h2
      exact ih qs' fs' hp' hj hex hq'

theorem bfold_delivers (g : Uuid) (m : String) (ex : Uuid)
    (p : Uuid × Client) (ms : List String) :
    ∀ (cs : List (Uuid × Client)) (qs : List (Nat × QueueState))
      (fs : List Uuid),
      p ∈ cs → (cs.map Prod.fst).Nodup →
      (∀ q ∈ cs, q.2.sender = p.2.sender → q = p) →
      p.2.joint_id = g → p.1 ≠ ex →
      lookupKey p.2.sender qs = some ⟨true, ms⟩ →
      lookupKey p.2.sender (cs.foldl (ConnectionManager.bstep g m ex) (qs, fs)).1
        = some ⟨true, ms ++ [m]⟩ := by
  intro cs
  induction cs with
  | nil => intro qs fs hp _ _ _ _ _; simp at hp
  | cons c cs ih =>
    intro qs fs hp hnd huniq hj hex hq
    have hnd2 : (c.1 :: cs.map Prod.fst).Nodup := by simpa using hnd
    rw [List.foldl_cons]
    rcases List.mem_cons.mp hp with he | hp'
    · subst he
      have hb : ConnectionManager.bstep g m ex (qs, fs) p
          = (updateKey p.2.sender ⟨true, ms ++ [m]⟩ qs, fs) := by
        rw [bstep_eligible qs fs hj hex, sendToQueue_open m hq]
        simp
      rw [hb]
      have hframe : ∀ q ∈ cs, q.2.joint_id = g → q.1 ≠ ex →
          q.2.sender ≠ p.2.sender := by
        intro q hqmem _ _ hsend
        have hqp : q = p := huniq q (List.mem_cons_of_mem _ hqmem) hsend
        subst hqp
        exact (List.nodup_cons.mp hnd2).1 (List.mem_map_of_mem Prod.fst hqmem)
      rw [bfold_frame g m ex p.2.sender cs
        (updateKey p.2.sender ⟨true, ms ++ [m]⟩ qs) fs hframe]
      rw [lookupKey_updateKey_self, hq]
      rfl
    · have hcp : c ≠ p := by
        intro he
        subst he
        exact (List.nodup_cons.mp hnd2).1 (List.mem_map_of_mem Prod.fst hp')
      have hcs : c.2.sender ≠ p.2.sender := fun hsend =>
        hcp (huniq c (List.mem_cons_self _ _) hsend)
      rcases hb : ConnectionManager.bstep g m ex (qs, fs) c with ⟨qs', fs'⟩
      have hq' : lookupKey p.2.sender qs' = some ⟨true, ms⟩ := by
        have h2 : lookupKey p.2.sender
            (ConnectionManager.bstep g m ex (qs, fs) c).1
            = lookupKey p.2.sender qs := bstep_lookup_ne qs fs hcs
        rw [hb] at h2; exact h2.trans hq
      exact ih qs' fs' hp' (List.nodup_cons.mp hnd2).2
        (fun q hqm => huniq q (List.mem_cons_of_mem _ hqm)) hj hex hq'

/-! ### Bridging and counting lemmas -/

theorem broadcast_queues (s : RegistryState) (g : Uuid) (m : String)
    (ex : Uuid) :
    (ConnectionManager.broadcast_to_joint s g m ex).1.queues
      = (s.clients.foldl (ConnectionManager.bstep g m ex) (s.queues, [])).1 :=
  rfl

theorem broadcast_clients (s : RegistryState) (g : Uuid) (m : String)
    (ex : Uuid) :
    (ConnectionManager.broadcast_to_joint s g m ex).1.clients = s.clients :=
  rfl

theorem broadcast_fails (s : RegistryState) (g : Uuid) (m : String)
    (ex : Uuid) :
    (ConnectionManager.broadcast_to_joint s g m ex).2
      = (s.clients.foldl (ConnectionManager.bstep g m ex) (s.queues, [])).2 :=
  rfl

theorem applyBroadcasts_frame (qid : Nat) :
    ∀ (ops : List (Uuid × String × Uuid)) (s : RegistryState),
      (∀ p ∈ s.clients, p.2.sender ≠ qid) →
      lookupKey qid (applyBroadcasts s ops).queues = lookupKey qid s.queues := by
  intro ops
  induction ops with
  | nil => intro s _; rfl
  | cons op rest ih =>
    obtain ⟨g, m, ex⟩ := op
    intro s h
    have hstep : lookupKey qid
        (ConnectionManager.broadcast_to_joint s g m ex).1.queues
        = lookupKey qid s.queues := by
      rw [broadcast_queues]
      exact bfold_frame g m ex qid s.clients s.queues []
        (fun p hp _ _ => h p hp)
    have hcl : ∀ p ∈ (ConnectionManager.broadcast_to_joint s g m ex).1.clients,
        p.2.sender ≠ qid := by
      rw [broadcast_clients]; exact h
    show lookupKey qid
        (applyBroadcasts (ConnectionManager.broadcast_to_joint s g m ex).1
          rest).queues = lookupKey qid s.queues
    rw [ih (ConnectionManager.broadcast_to_joint s g m ex).1 hcl, hstep]

theorem countP_eraseKey {α : Type} (pred : Nat × α → Bool) (k : Nat) :
    ∀ l : List (Nat × α), (∀ p ∈ l, p.1 = k → pred p = false) →
      (eraseKey k l).countP pred = l.countP pred := by
  intro l
  induction l with
  | nil => intro _; rfl
  | cons p l ih =>
    obtain ⟨k', v⟩ := p
    intro h
    have htail := ih (fun q hq => h q (List.mem_cons_of_mem _ hq))
    by_cases hk : k' = k
    · have hfalse : pred (k', v) = false := h (k', v) (List.mem_cons_self _ _) hk
      simp only [eraseKey, if_pos hk, htail, List.countP_cons, hfalse]
      simp
    · simp only [eraseKey, if_neg hk, List.countP_cons, htail]

theorem get_joint_user_count_eq (s : RegistryState) (g : Uuid) :
    ConnectionManager.get_joint_user_count s g
      = s.clients.countP (fun p => p.2.joint_id == g) := by
  unfold ConnectionManager.get_joint_user_count
  rw [List.countP_map]
  rfl

/-! ### Claim theorems -/

/-- C1: `broadcast_to_joint(groupId, payload, excludeIdentity)` enqueues the
payload onto the outbound queue of every currently registered record whose
`joint_id` equals the given group and whose identity differs from the
excluded sender (the queues being live), and never enqueues onto the queue
of the record registered under the excluded identity. -/
theorem broadcast_delivers_to_group_except_sender (s : RegistryState)
    (g : Uuid) (m : String) (ex : Uuid) (hwf : WF s) :
    (∀ p ∈ s.clients, p.2.joint_id = g → p.1 ≠ ex →
      ∀ ms, lookupKey p.2.sender s.queues = some ⟨true, ms⟩ →
        lookupKey p.2.sender
            (ConnectionManager.broadcast_to_joint s g m ex).1.queues
          = some ⟨true, ms ++ [m]⟩) ∧
    (∀ p ∈ s.clients, p.1 = ex →
      lookupKey p.2.sender
          (ConnectionManager.broadcast_to_joint s g m ex).1.queues
        = lookupKey p.2.sender s.queues) := by
  constructor
  · intro p hp hj hex ms hq
    rw [broadcast_queues]
    exact bfold_delivers g m ex p ms s.clients s.queues [] hp hwf.1
      (fun q hq' hs => hwf.2 q hq' p hp hs) hj hex hq
  · intro p hp hex
    rw [broadcast_queues]
    refine bfold_frame g m ex p.2.sender s.clients s.queues [] ?_
    intro q hq _ hqex hsend
    have hqp : q = p := hwf.2 q hq p hp hsend
    subst hqp
    exact hqex hex

/-- Witness for C1: in the three-member joint 5 of `stateABC`, broadcasting
from client 1 appends to client 2's queue and leaves client 1's untouched. -/
theorem broadcast_delivers_to_group_except_sender_witness :
    lookupKey 20
        (ConnectionManager.broadcast_to_joint stateABC 5 "hello" 1).1.queues
      = some ⟨true, ["hello"]⟩ ∧
    lookupKey 10
        (ConnectionManager.broadcast_to_joint stateABC 5 "hello" 1).1.queues
      = lookupKey 10 stateABC.queues := by
  have h := broadcast_delivers_to_group_except_sender stateABC 5 "hello" 1
    ⟨by decide, by decide⟩
  exact ⟨h.1 (2, ⟨2, "b", 5, 20⟩) (by decide) rfl (by decide) [] rfl,
    h.2 (1, ⟨1, "a", 5, 10⟩) (by decide) rfl⟩

/-- C2: in the reader loop, a frame is broadcast only after its
`ChatMessage` row was successfully inserted; on a persistence failure the
frame is dropped — the registry (hence every recipient queue) is untouched
— and the loop continues. -/
theorem recv_persist_gate (parse : String → Option String)
    (ser : OutgoingMessage → Option String) (mid : Uuid) (ts : String)
    (s : RegistryState) (t : String) (jid uid : Uuid) (un : String) :
    recvStep parse false ser mid ts s (WsMessage.text t) jid uid un
      = (s, LoopCtl.cont) ∧
    (∀ b : Bool,
      (recvStep parse b ser mid ts s (WsMessage.text t) jid uid un).1 ≠ s →
      b = true) := by
  constructor
  · cases hp : parse t with
    | none => simp [recvStep, hp]
    | some content => simp [recvStep, hp]
  · intro b h
    cases b with
    | true => rfl
    | false =>
      exfalso
      apply h
      cases hp : parse t with
      | none => simp [recvStep, hp]
      | some content => simp [recvStep, hp]

/-- Witness for C2: with a failing INSERT the concrete frame leaves
`stateABC` unchanged and the loop continues; with a succeeding INSERT the
state does change, witnessing that only persisted frames broadcast. -/
theorem recv_persist_gate_witness :
    recvStep parseHi false serContent 99 "t" stateABC (WsMessage.text "x")
        5 1 "a" = (stateABC, LoopCtl.cont) ∧ true = true := by
  refine ⟨(recv_persist_gate parseHi serContent 99 "t" stateABC "x" 5 1 "a").1,
    (recv_persist_gate parseHi serContent 99 "t" stateABC "x" 5 1 "a").2 true
      (by decide)⟩

/-- C3 as stated is false on the code: in `deadState` client 1's queue is
closed, so the broadcast's send fails and is logged (`[1]`), yet client 1's
record is still registered afterwards — `broadcast_to_joint` never removes
a record upon a failed send. -/
theorem broadcast_retains_dead_record_cex :
    (ConnectionManager.broadcast_to_joint deadState 5 "hello" 2).2 = [1] ∧
    lookupKey 1
        (ConnectionManager.broadcast_to_joint deadState 5 "hello" 2).1.clients
      = some ⟨1, "alice", 5, 10⟩ := by
  constructor <;> rfl

/-- C3 amended: a failed send during broadcast is logged and skipped but
the dead record is retained — `broadcast_to_joint` never mutates the client
map; a record leaves the registry only via `remove_client` (relay teardown)
or by being replaced at re-registration. -/
theorem broadcast_never_removes_records (s : RegistryState) (g : Uuid)
    (m : String) (ex : Uuid) (uid : Uuid) :
    (ConnectionManager.broadcast_to_joint s g m ex).1.clients = s.clients ∧
    lookupKey uid (ConnectionManager.remove_client s uid).clients = none :=
  ⟨rfl, lookupKey_eraseKey_self uid s.clients⟩

/-- C4: `add_client` inserts or replaces the record for the identity:
afterwards the identity maps to the new record, exactly one entry carries
that identity, and key-distinctness of the map is preserved. -/
theorem add_client_at_most_one_per_identity (s : RegistryState) (uid : Uuid)
    (un : String) (jid : Uuid) (snd : Nat) :
    lookupKey uid (ConnectionManager.add_client s uid un jid snd).clients
      = some ⟨uid, un, jid, snd⟩ ∧
    ((ConnectionManager.add_client s uid un jid snd).clients.map
        Prod.fst).count uid = 1 ∧
    ((s.clients.map Prod.fst).Nodup →
      ((ConnectionManager.add_client s uid un jid snd).clients.map
        Prod.fst).Nodup) := by
  refine ⟨by simp [ConnectionManager.add_client, lookupKey], ?_, ?_⟩
  · have h0 : ((eraseKey uid s.clients).map Prod.fst).count uid = 0 :=
      List.count_eq_zero.mpr (not_mem_map_fst_eraseKey uid s.clients)
    show (uid :: (eraseKey uid s.clients).map Prod.fst).count uid = 1
    rw [List.count_cons_self, h0]
  · intro h
    show (uid :: (eraseKey uid s.clients).map Prod.fst).Nodup
    exact List.nodup_cons.mpr
      ⟨not_mem_map_fst_eraseKey uid s.clients, nodup_map_fst_eraseKey uid h⟩

/-- Witness for C4: re-registering identity 2 of `stateABC` under a new
queue leaves exactly the new record, with keys still distinct. -/
theorem add_client_at_most_one_per_identity_witness :
    lookupKey 2 (ConnectionManager.add_client stateABC 2 "b2" 5 21).clients
      = some ⟨2, "b2", 5, 21⟩ ∧
    ((ConnectionManager.add_client stateABC 2 "b2" 5 21).clients.map
        Prod.fst).Nodup := by
  have h := add_client_at_most_one_per_identity stateABC 2 "b2" 5 21
  exact ⟨h.1, h.2.2 (by decide)⟩

/-- C5: `remove_client` is keyed solely by identity — it removes whichever
record is currently registered under it and leaves other identities alone;
in particular, after a second connection supersedes the first, the first
connection's teardown removes the second connection's record, leaving the
identity unregistered. -/
theorem remove_client_keyed_by_identity (s : RegistryState) (uid : Uuid)
    (un1 un2 : String) (jid : Uuid) (q1 q2 : Nat) :
    lookupKey uid (ConnectionManager.remove_client s uid).clients = none ∧
    (∀ uid' : Uuid, uid' ≠ uid →
      lookupKey uid' (ConnectionManager.remove_client s uid).clients
        = lookupKey uid' s.clients) ∧
    lookupKey uid (ConnectionManager.add_client
        (ConnectionManager.add_client s uid un1 jid q1) uid un2 jid q2).clients
      = some ⟨uid, un2, jid, q2⟩ ∧
    lookupKey uid (ConnectionManager.remove_client
        (ConnectionManager.add_client
          (ConnectionManager.add_client s uid un1 jid q1) uid un2 jid q2)
        uid).clients = none :=
  ⟨lookupKey_eraseKey_self uid s.clients,
   fun uid' h => lookupKey_eraseKey_ne h s.clients,
   by simp [ConnectionManager.add_client, lookupKey],
   lookupKey_eraseKey_self uid _⟩

/-- Witness for C5 at `stateABC`: removing identity 1 leaves no record for
it and does not touch identity 2's record. -/
theorem remove_client_keyed_by_identity_witness :
    lookupKey 1 (ConnectionManager.remove_client stateABC 1).clients = none ∧
    lookupKey 2 (ConnectionManager.remove_client stateABC 1).clients
      = lookupKey 2 stateABC.clients := by
  have h := remove_client_keyed_by_identity stateABC 1 "a" "a2" 5 10 11
  exact ⟨h.1, h.2.1 2 (by decide)⟩

/-- C6: once `remove_client(identity)` has returned, no subsequent
broadcast — to any group, with any payload, excluding any sender — enqueues
anything onto the removed identity's outbound queue (each connection's
channel being private to it). -/
theorem no_delivery_after_deregister (s : RegistryState) (uid : Uuid)
    (c : Client) (_hc : lookupKey uid s.clients = some c)
    (hfresh : ∀ p ∈ s.clients, p.1 ≠ uid → p.2.sender ≠ c.sender)
    (ops : List (Uuid × String × Uuid)) :
    lookupKey c.sender
        (applyBroadcasts (ConnectionManager.remove_client s uid) ops).queues
      = lookupKey c.sender s.queues := by
  have h : ∀ p ∈ (ConnectionManager.remove_client s uid).clients,
      p.2.sender ≠ c.sender := by
    intro p hp
    have hm := mem_eraseKey (show p ∈ eraseKey uid s.clients from hp)
    exact hfresh p hm.1 hm.2
  exact applyBroadcasts_frame c.sender ops
    (ConnectionManager.remove_client s uid) h

/-- Witness for C6: after removing client 1 from `stateABC`, a broadcast to
joint 5 leaves queue 10 exactly as it was. -/
theorem no_delivery_after_deregister_witness :
    lookupKey 10 (applyBroadcasts (ConnectionManager.remove_client stateABC 1)
        [(5, "x", 2)]).queues
      = lookupKey 10 stateABC.queues :=
  no_delivery_after_deregister stateABC 1 ⟨1, "a", 5, 10⟩ rfl (by decide)
    [(5, "x", 2)]

/-- C7: a per-recipient enqueue failure during a broadcast is logged and
skipped — every other eligible recipient with a live queue still receives
the payload, and the broadcast returns (it is a total function); when the
group has no other registered member the call returns with no observable
effect. -/
theorem broadcast_failure_logged_skipped (s : RegistryState) (g : Uuid)
    (m : String) (ex : Uuid) (hwf : WF s) :
    (∀ p ∈ s.clients, p.2.joint_id = g → p.1 ≠ ex →
      ∀ ms, lookupKey p.2.sender s.queues = some ⟨false, ms⟩ →
        p.1 ∈ (ConnectionManager.broadcast_to_joint s g m ex).2) ∧
    (∀ p ∈ s.clients, p.2.joint_id = g → p.1 ≠ ex →
      ∀ ms, lookupKey p.2.sender s.queues = some ⟨true, ms⟩ →
        lookupKey p.2.sender
            (ConnectionManager.broadcast_to_joint s g m ex).1.queues
          = some ⟨true, ms ++ [m]⟩) ∧
    ((∀ p ∈ s.clients, p.2.joint_id = g → p.1 = ex) →
      ConnectionManager.broadcast_to_joint s g m ex = (s, [])) := by
  refine ⟨?_, ?_, ?_⟩
  · intro p hp hj hex ms hq
    rw [broadcast_fails]
    exact bfold_logs_closed g m ex p ms s.clients s.queues [] hp hj hex hq
  · intro p hp hj hex ms hq
    rw [broadcast_queues]
    exact bfold_delivers g m ex p ms s.clients s.queues [] hp hwf.1
      (fun q hq' hs => hwf.2 q hq' p hp hs) hj hex hq
  · intro h
    have hfold := bfold_id g m ex s.clients s.queues [] h
    show ({ s with queues :=
        (s.clients.foldl (ConnectionManager.bstep g m ex) (s.queues, [])).1 },
      (s.clients.foldl (ConnectionManager.bstep g m ex) (s.queues, [])).2)
      = (s, [])
    rw [hfold]

/-- Witness for C7 at `mixedState`: client 2's dead queue is logged while
client 3 still receives the payload; and in `deadState` a broadcast by the
only member has no effect. -/
theorem broadcast_failure_logged_skipped_witness :
    2 ∈ (ConnectionManager.broadcast_to_joint mixedState 5 "m" 1).2 ∧
    lookupKey 30
        (ConnectionManager.broadcast_to_joint mixedState 5 "m" 1).1.queues
      = some ⟨true, ["m"]⟩ ∧
    ConnectionManager.broadcast_to_joint deadState 5 "m" 1
      = (deadState, []) := by
  have h := broadcast_failure_logged_skipped mixedState 5 "m" 1
    ⟨by decide, by decide⟩
  have h2 := broadcast_failure_logged_skipped deadState 5 "m" 1
    ⟨by decide, by decide⟩
  exact ⟨h.1 (2, ⟨2, "b", 5, 20⟩) (by decide) rfl (by decide) [] rfl,
    h.2.1 (3, ⟨3, "c", 5, 30⟩) (by decide) rfl (by decide) [] rfl,
    h2.2.2 (by decide)⟩

/-- C9: `get_joint_user_count(G)` returns exactly the number of currently
registered records whose `joint_id` equals `G` (the spec's `countInGroup`),
and register/deregister operations touching only records of other groups
leave the value for `G` unchanged. -/
theorem joint_user_count_correct (s : RegistryState) (g uid : Uuid)
    (un : String) (jid : Uuid) (snd : Nat) (hnew : jid ≠ g)
    (hold : ∀ p ∈ s.clients, p.1 = uid → p.2.joint_id ≠ g) :
    ConnectionManager.get_joint_user_count s g = spec_countInGroup s g ∧
    ConnectionManager.get_joint_user_count
        (ConnectionManager.add_client s uid un jid snd) g
      = ConnectionManager.get_joint_user_count s g ∧
    ConnectionManager.get_joint_user_count
        (ConnectionManager.remove_client s uid) g
      = ConnectionManager.get_joint_user_count s g := by
  have hpred : ∀ p ∈ s.clients, p.1 = uid →
      (fun p : Uuid × Client => p.2.joint_id == g) p = false := by
    intro p hp hu
    exact beq_eq_false_iff_ne.mpr (hold p hp hu)
  refine ⟨?_, ?_, ?_⟩
  · rw [get_joint_user_count_eq, spec_countInGroup,
      List.countP_eq_length_filter]
  · rw [get_joint_user_count_eq, get_joint_user_count_eq]
    show ((uid, (⟨uid, un, jid, snd⟩ : Client)) ::
        eraseKey uid s.clients).countP (fun p => p.2.joint_id == g)
      = s.clients.countP (fun p => p.2.joint_id == g)
    rw [List.countP_cons, countP_eraseKey _ uid s.clients hpred]
    have hnb : ((⟨uid, un, jid, snd⟩ : Client).joint_id == g) = false :=
      beq_eq_false_iff_ne.mpr hnew
    simp [hnb]
  · rw [get_joint_user_count_eq, get_joint_user_count_eq]
    exact countP_eraseKey _ uid s.clients hpred

/-- Witness for C9: registering and deregistering identity 4 in joint 6
leaves the count of joint 5 in `stateABC` unchanged. -/
theorem joint_user_count_correct_witness :
    ConnectionManager.get_joint_user_count
        (ConnectionManager.add_client stateABC 4 "d" 6 40) 5
      = ConnectionManager.get_joint_user_count stateABC 5 ∧
    ConnectionManager.get_joint_user_count
        (ConnectionManager.remove_client stateABC 4) 5
      = ConnectionManager.get_joint_user_count stateABC 5 := by
  have h := joint_user_count_correct stateABC 5 4 "d" 6 40 (by decide)
    (by decide)
  exact ⟨h.2.1, h.2.2⟩

/-- C10: `remove_client` removes the record for the identity whenever one
is present (afterwards the identity has no record), is an error-free no-op
returning the very same state when the identity is absent, and is
idempotent. -/
theorem remove_client_idempotent (s : RegistryState) (uid : Uuid) :
    lookupKey uid (ConnectionManager.remove_client s uid).clients = none ∧
    ConnectionManager.remove_client (ConnectionManager.remove_client s uid)
        uid
      = ConnectionManager.remove_client s uid ∧
    (lookupKey uid s.clients = none →
      ConnectionManager.remove_client s uid = s) := by
  refine ⟨lookupKey_eraseKey_self uid s.clients, ?_, ?_⟩
  · have h : eraseKey uid (eraseKey uid s.clients) = eraseKey uid s.clients :=
      eraseKey_of_lookupKey_none (lookupKey_eraseKey_self uid s.clients)
    show RegistryState.mk (eraseKey uid (eraseKey uid s.clients)) s.queues
      = RegistryState.mk (eraseKey uid s.clients) s.queues
    rw [h]
  · intro h
    show RegistryState.mk (eraseKey uid s.clients) s.queues = s
    rw [eraseKey_of_lookupKey_none h]

/-- Witness for C10: identity 1 is registered in `stateABC` and its removal
leaves it with no record, removing it twice equals removing it once, and
removing the absent identity 9 is a no-op returning `stateABC` itself. -/
theorem remove_client_idempotent_witness :
    lookupKey 1 (ConnectionManager.remove_client stateABC 1).clients = none ∧
    ConnectionManager.remove_client (ConnectionManager.remove_client stateABC 1)
        1
      = ConnectionManager.remove_client stateABC 1 ∧
    ConnectionManager.remove_client stateABC 9 = stateABC := by
  have h1 := remove_client_idempotent stateABC 1
  have h9 := remove_client_idempotent stateABC 9
  exact ⟨h1.1, h1.2.1, h9.2.2 (by decide)⟩

/-- C8: the Admission Gate performs, in order: (1) bearer-credential
extraction and validation — a missing or malformed header is refused with
`Unauthorized` and an invalid token with the verifier's error, all of which
map to HTTP 401; (2) identity and display-name resolution; (3) a membership
check of the identity against the requested joint, refused with a
`ValidationError` (HTTP 400).  Only when all three succeed is
`(identity, joint, username)` handed onward, and on any failure the upgrade
is refused with the error and no registry state is created. -/
theorem admission_gate_sequence (env : WsAuthEnv) (jid : Uuid)
    (s : RegistryState) (fresh : Nat) :
    (ws_auth_middleware env jid none = .error .Unauthorized) ∧
    (∀ h : String, strStartsWith h "Bearer " = false →
      ws_auth_middleware env jid (some h) = .error .Unauthorized) ∧
    (∀ (h : String) (e : AppError), strStartsWith h "Bearer " = true →
      env.verify_token (trim_start_matches h "Bearer ") = .error e →
      ws_auth_middleware env jid (some h) = .error e) ∧
    (∀ (h : String) (claims : Claims) (u : Uuid) (un : String),
      strStartsWith h "Bearer " = true →
      env.verify_token (trim_start_matches h "Bearer ") = .ok claims →
      env.parse_uuid claims.sub = some u →
      env.db_username u = .ok (some un) →
      env.db_membership jid u = .ok false →
      ws_auth_middleware env jid (some h)
        = .error (.ValidationError "You are not a member of this joint")) ∧
    (∀ (h : String) (claims : Claims) (u : Uuid) (un : String),
      strStartsWith h "Bearer " = true →
      env.verify_token (trim_start_matches h "Bearer ") = .ok claims →
      env.parse_uuid claims.sub = some u →
      env.db_username u = .ok (some un) →
      env.db_membership jid u = .ok true →
      ws_auth_middleware env jid (some h) = .ok (u, jid, un)) ∧
    (∀ (hdr : Option String) (e : AppError),
      ws_auth_middleware env jid hdr = .error e →
      ws_connect env s jid hdr fresh = (s, some e)) ∧
    (AppError.Unauthorized.statusCode = 401 ∧
     AppError.InvalidToken.statusCode = 401 ∧
     AppError.TokenExpired.statusCode = 401 ∧
     ∀ msg : String, (AppError.ValidationError msg).statusCode = 400) := by
  refine ⟨rfl, ?_, ?_, ?_, ?_, ?_, rfl, rfl, rfl, fun _ => rfl⟩
  · intro h hsw
    simp [ws_auth_middleware, hsw]
  · intro h e hsw hv
    simp [ws_auth_middleware, hsw, hv]
  · intro h claims u un hsw hv hpu hun hm
    simp [ws_auth_middleware, hsw, hv, hpu, hun, hm]
  · intro h claims u un hsw hv hpu hun hm
    simp [ws_auth_middleware, hsw, hv, hpu, hun, hm]
  · intro hdr e h
    simp [ws_connect, h]

/-- Witness for C8 with the concrete environment `envOK`: the valid bearer
token for member 42 of joint 7 is admitted with its identity and username;
the same token against joint 8 is refused with the validation outcome; and
a missing header is refused with `Unauthorized`, leaving `stateABC`
untouched. -/
theorem admission_gate_sequence_witness :
    ws_auth_middleware envOK 7 (some "Bearer tok") = .ok (42, 7, "alice") ∧
    ws_auth_middleware envOK 8 (some "Bearer tok")
      = .error (.ValidationError "You are not a member of this joint") ∧
    ws_connect envOK stateABC 8 none 99 = (stateABC, some .Unauthorized) := by
  have h7 := admission_gate_sequence envOK 7 stateABC 99
  have h8 := admission_gate_sequence envOK 8 stateABC 99
  exact ⟨h7.2.2.2.2.1 "Bearer tok" ⟨"42", 0, 0⟩ 42 "alice" rfl rfl rfl rfl rfl,
    h8.2.2.2.1 "Bearer tok" ⟨"42", 0, 0⟩ 42 "alice" rfl rfl rfl rfl rfl,
    h8.2.2.2.2.2.1 none AppError.Unauthorized h8.1⟩

end SpotFeed
